import Mathlib

/-!
Shallow embedding of `src/index.ts` of `dylibso/mcpx-anthropic-node`: the
resumable turn state machine (`Driver.next`, `Driver.nextTurn`,
`Driver.createMessage`), the tool invoker (`Driver.call`) and the schema
error classifier (`ToolSchemaError.parse`).

The external collaborators (the Anthropic completion client and the MCPX
tool-execution session) are modelled as oracle functions carried in an
`Env`.  The request configuration (`model`, `max_tokens`, the tool list
sent with the request, …) is constant across one `createMessage` run, so
the completion oracle is a function of the message list alone.
-/

namespace Mcpx

/-- `stop_reason` of a completion response
(`'end_turn' | 'max_tokens' | 'stop_sequence' | 'tool_use'`, nullable). -/
inductive StopReason
  | end_turn
  | max_tokens
  | stop_sequence
  | tool_use
deriving DecidableEq, Repr

/-- `status` field of `McpxAnthropicStage`: `'ready' | 'pending' | 'input_wait'`. -/
inductive Status
  | pending
  | input_wait
  | ready
deriving DecidableEq, Repr

/-- The string the TS runtime would produce for a status value
(used in the `Illegal status: ` error message). -/
def statusStr : Status → String
  | .pending => "pending"
  | .input_wait => "input_wait"
  | .ready => "ready"

/-- One item of tool-result content: a JS object `{ [type]: payload, type }`
(also used for the gateway's raw items `{ type, [type]: payload }`,
which carry the same two pieces of data). -/
structure ContentItem where
  ty : String
  payload : String
deriving DecidableEq, Repr

/-- The `content` field of a `tool_result` block: either a plain string
(the stringified error, or a single non-list gateway payload passed
through) or a list of flattened content items. -/
inductive ToolContent
  | str (s : String)
  | items (l : List ContentItem)
deriving DecidableEq, Repr

/-- A content block of a message: `text`, `tool_use {id, name, input}` or
`tool_result {tool_use_id, content, is_error}`.  `tool_use_id` is an
`Option` because `Driver.call` destructures its argument without checking
its tag, so a block that is not a `tool_use` yields an undefined id.
An absent `is_error` field is modelled as `false`. -/
inductive ContentBlock
  | text (s : String)
  | tool_use (id name input : String)
  | tool_result (tool_use_id : Option String) (content : ToolContent) (is_error : Bool)
deriving DecidableEq, Repr

/-- An entry of the message list (`Anthropic.Messages.MessageParam`).
Inside the driver every message it touches has list-shaped content. -/
structure MessageParam where
  role : String
  content : List ContentBlock
deriving DecidableEq, Repr

/-- A completion response (`Anthropic.Messages.Message`), restricted to the
fields the driver reads. -/
structure ResponseMessage where
  role : String
  content : List ContentBlock
  stop_reason : Option StopReason
deriving DecidableEq, Repr

/-- The `{} as Anthropic.Messages.Message` placeholder response that
`nextTurn` puts in a fresh pending stage. -/
def emptyResponse : ResponseMessage := ⟨"", [], none⟩

/-- A tool descriptor as sent to the completion service. -/
structure Tool where
  name : String
  description : String
  input_schema : String
deriving DecidableEq, Repr

/-- `McpxAnthropicStage`: the resumable state record. -/
structure Stage where
  response : ResponseMessage
  messages : List MessageParam
  index : Nat
  toolCallIndex : Option Nat
  submessageIdx : Option Nat
  status : Status
deriving DecidableEq, Repr

/-- `McpxAnthropicTurn`: the result record of `Driver.nextTurn`. -/
structure Turn where
  response : ResponseMessage
  messages : List MessageParam
  index : Nat
  done : Bool
deriving DecidableEq, Repr

/-- The innermost error object of an Anthropic API error
(`err.error.error`), with possibly-absent `type` and `message` fields. -/
structure InnerErr where
  type : Option String
  message : Option String
deriving DecidableEq, Repr

/-- The middle error object (`err.error`), whose `error` field may be absent. -/
structure MidErr where
  error : Option InnerErr
deriving DecidableEq, Repr

/-- A JS error value as far as `ToolSchemaError.parse` and the
`ToolSchemaError` constructor inspect it: the optional nested
`error.error` object, the top-level `message`, and an opaque `tag`
standing for all the other contents of the JS value (so that distinct
errors are distinct values of the model). -/
structure ErrVal where
  error : Option MidErr
  message : Option String
  tag : String
deriving DecidableEq, Repr

/-! JS string primitives used by `ToolSchemaError.parse`, modelled over
`List Char`. -/

/-- JS `String.prototype.includes`: substring test. -/
def jsIncludes (needle : List Char) : List Char → Bool
  | [] => needle.isEmpty
  | c :: t => needle.isPrefixOf (c :: t) || jsIncludes needle t

/-- Accumulator worker for `jsSplit`. -/
def jsSplitAux (sep : Char) (cur : List Char) : List Char → List (List Char)
  | [] => [cur.reverse]
  | c :: cs =>
    if c = sep then cur.reverse :: jsSplitAux sep [] cs
    else jsSplitAux sep (c :: cur) cs

/-- JS `String.prototype.split` with a one-character separator. -/
def jsSplit (sep : Char) (s : List Char) : List (List Char) :=
  jsSplitAux sep [] s

/-- JS `parseInt(s)` (radix 10): skip leading whitespace, optional sign,
then the maximal run of decimal digits; `none` models `NaN`. -/
def parseIntJS (s : List Char) : Option Int :=
  let s1 := s.dropWhile (fun c => c.isWhitespace)
  let signed : Int × List Char :=
    match s1 with
    | '-' :: t => (-1, t)
    | '+' :: t => (1, t)
    | _ => (1, s1)
  let ds := signed.2.takeWhile (fun c => c.isDigit)
  if ds.isEmpty then none
  else some (signed.1 * Int.ofNat (ds.foldl (fun acc c => acc * 10 + (c.toNat - '0'.toNat)) 0))

/-- The `ToolSchemaError` class: `message` as built by the constructor
(`Invalid schema for tool #<i>: '<name>'\nCaused by: <error.message>`),
plus the `originalError`, `toolIndex` and `toolName` fields. -/
structure ToolSchemaError where
  message : String
  originalError : ErrVal
  toolIndex : Nat
  toolName : String
deriving DecidableEq, Repr

/-- The `ToolSchemaError` constructor.  A JS template literal renders an
undefined `error.message` as the string `undefined`. -/
def ToolSchemaError.make (error : ErrVal) (toolIndex : Nat) (toolName : String) : ToolSchemaError :=
  { message := "Invalid schema for tool #" ++ toString toolIndex ++ ": '" ++ toolName
      ++ "'\nCaused by: " ++ (match error.message with | some m => m | none => "undefined")
    originalError := error
    toolIndex := toolIndex
    toolName := toolName }

/-- Outcome of `ToolSchemaError.parse`: the original error returned
unchanged, a classified `ToolSchemaError`, or a thrown `TypeError`
(reading `.name` of `tools[index]` when that element is undefined —
out-of-bounds, negative, or `NaN` index). -/
inductive ParseResult
  | original (err : ErrVal)
  | classified (e : ToolSchemaError)
  | thrown
deriving DecidableEq, Repr

/-- `ToolSchemaError.parse(err, tools)`. -/
def ToolSchemaError.parse (err : ErrVal) (tools : List Tool) : ParseResult :=
  let error : Option InnerErr := err.error.bind (fun e => e.error)
  let message : Option String := error.bind (fun e => e.message)
  let isInvalidReq : Bool :=
    match error with
    | some e => e.type == some "invalid_request_error"
    | none => false
  let mentionsSchema : Bool :=
    match message with
    | some m => jsIncludes "input_schema".toList m.toList
    | none => false
  if isInvalidReq && mentionsSchema then
    match message with
    | some m =>
      if "tools.".toList.isPrefixOf m.toList then
        let parts := jsSplit '.' m.toList
        match parseIntJS (parts.getD 1 []) with
        | some (Int.ofNat n) =>
          match tools[n]? with
          | some t => .classified (ToolSchemaError.make err n t.name)
          | none => .thrown
        | _ => .thrown
      else .original err
    | none => .original err
  else .original err

/-- Payload of a tool-gateway response (`result.content`): either an array
of raw items (each reshaped by the invoker) or a single non-list payload
passed through unchanged. -/
inductive GwPayload
  | arr (items : List ContentItem)
  | single (v : ToolContent)
deriving DecidableEq, Repr

/-- The external collaborators of a `Driver`, as deterministic oracles:
`model` is the Anthropic completion call on the current message list
(the request configuration is fixed for a run), `gw` is the MCPX
session's `handleCallTool` on a (possibly undefined) tool name and
input, and `tools` is the resolved tool catalog `this.#tools`. -/
structure Env where
  model : List MessageParam → Except ErrVal ResponseMessage
  gw : Option String → Option String → Except String GwPayload
  tools : List Tool

/-- Errors a run can surface: a completion failure routed through
`ToolSchemaError.parse`, the `Illegal status` programming error, a
`TypeError` from resolving a missing message/submessage in `input_wait`,
and fuel exhaustion of the (otherwise unbounded) driving loops. -/
inductive Err
  | modelErr (p : ParseResult)
  | illegal (s : String)
  | badStage
  | outOfFuel
deriving DecidableEq, Repr

/-- `const { id, … } = submessage` on an arbitrary content block:
undefined unless the block is a `tool_use`. -/
def blockId : ContentBlock → Option String
  | .tool_use id _ _ => some id
  | _ => none

/-- `const { …, name } = submessage`. -/
def blockName : ContentBlock → Option String
  | .tool_use _ name _ => some name
  | _ => none

/-- `const { …, input, … } = submessage`. -/
def blockInput : ContentBlock → Option String
  | .tool_use _ _ input => some input
  | _ => none

namespace Driver

/-- `Driver.call`: invoke the tool gateway for one requested call and wrap
the outcome as a `tool_result` block.  An array result is flattened item
by item to `{ [type]: payload, type }`; a failure is caught and yields
`{ tool_use_id, content: err.toString(), is_error: true }`. -/
def call (env : Env) (submessage : ContentBlock) : ContentBlock :=
  let id := blockId submessage
  let name := blockName submessage
  let input := blockInput submessage
  match env.gw name input with
  | .ok (.arr items) =>
    .tool_result id (.items (items.map (fun xs => ⟨xs.ty, xs.payload⟩))) false
  | .ok (.single v) => .tool_result id v false
  | .error e => .tool_result id (.str e) true

/-- Position of the first `tool_use` block, scanning from index `i`
(the `submessageIdx` counter of the scan in `Driver.next`). -/
def firstToolUseAux : Nat → List ContentBlock → Option Nat
  | _, [] => none
  | i, b :: bs =>
    match b with
    | .tool_use _ _ _ => some i
    | _ => firstToolUseAux (i + 1) bs

/-- Position of the first `tool_use` block of a response's content. -/
def firstToolUse (content : List ContentBlock) : Option Nat :=
  firstToolUseAux 0 content

/-- `Driver.next`: one transition of the turn state machine.

`pending`: issue one completion call (a failure is rethrown through
`ToolSchemaError.parse`), append the response message, advance the
logging boundary (`for (; messageIdx < messages.length; ++messageIdx)`
leaves `messageIdx = max index messages.length`), append the empty
placeholder user message, and scan the content for the first `tool_use`
block (the scan returns with `toolCallIndex = toolUseCount`, which is
still `0` at that point).

`input_wait`: resolve the submessage at `submessageIdx` inside
`messages[index-1]`, invoke the tool for it, append the result block to
the placeholder `messages[index]`, and advance.  A missing message or
submessage is the `TypeError` the TS destructuring/member access would
throw (`Err.badStage`).

`ready` falls to the `default` branch: `throw new Error("Illegal status: " + status)`. -/
def next (env : Env) (stage : Stage) : Except Err Stage :=
  match stage.status with
  | .pending =>
    match env.model stage.messages with
    | .error e => .error (.modelErr (ToolSchemaError.parse e env.tools))
    | .ok r =>
      let msgs1 := stage.messages ++ [⟨r.role, r.content⟩]
      let messageIdx := max stage.index msgs1.length
      let msgs2 := msgs1 ++ [⟨"user", []⟩]
      match firstToolUse r.content with
      | some i =>
        .ok ⟨r, msgs2, messageIdx, some 0, some i, .input_wait⟩
      | none =>
        if r.stop_reason = some .tool_use then
          .ok ⟨r, msgs2, messageIdx, none, none, .pending⟩
        else if r.stop_reason = some .end_turn ∧ 0 < stage.toolCallIndex.getD 0 then
          .ok ⟨r, msgs2, messageIdx, none, none, .pending⟩
        else
          .ok ⟨r, msgs1, messageIdx, none, none, .ready⟩
  | .input_wait =>
    match stage.messages[stage.index - 1]?, stage.messages[stage.index]?, stage.submessageIdx with
    | some inputMessage, some newMessage, some submessageIdx =>
      match inputMessage.content[submessageIdx]? with
      | none => .error .badStage
      | some submessage =>
        let result := call env submessage
        let msgs := stage.messages.set stage.index ⟨newMessage.role, newMessage.content ++ [result]⟩
        let nextTool := stage.toolCallIndex.getD 0 + 1
        let nextSubmessage := submessageIdx + 1
        if inputMessage.content.length ≤ nextSubmessage then
          .ok ⟨stage.response, msgs, stage.index, none, none, .pending⟩
        else
          .ok ⟨stage.response, msgs, stage.index, some nextTool, some nextSubmessage, .input_wait⟩
    | _, _, _ => .error .badStage
  | .ready => .error (.illegal ("Illegal status: " ++ statusStr .ready))

/-- The fresh stage `nextTurn` builds before its first `next` call:
`{ messages, index, status: 'pending', response: {} }`. -/
def mkPending (messages : List MessageParam) (index : Nat) : Stage :=
  ⟨emptyResponse, messages, index, none, none, .pending⟩

/-- Apply `next` repeatedly until `status` is `ready` (the step-by-step
driving of the state machine), with fuel consumed one unit per
`next` call. -/
def runSteps (env : Env) : Nat → Stage → Except Err Stage
  | 0, s => if s.status = .ready then .ok s else .error .outOfFuel
  | f + 1, s =>
    if s.status = .ready then .ok s
    else (next env s).bind (runSteps env f)

/-- The `do { stage = await this.next(stage, …) } while (stage.status === 'input_wait')`
loop of `nextTurn`, entered at an arbitrary stage: apply `next` while the
status is `input_wait`, one fuel unit per `next` call. -/
def runWhileIW (env : Env) : Nat → Stage → Except Err Stage
  | 0, s => if s.status = .input_wait then .error .outOfFuel else .ok s
  | f + 1, s =>
    if s.status = .input_wait then (next env s).bind (runWhileIW env f)
    else .ok s

mutual

/-- The turn loop of `Driver.createMessage` with `nextTurn` inlined: build
the fresh pending stage, take one `next` step, and dispatch on its
status exactly as `nextTurn`/`createMessage` do (`ready` → return the
response and final messages, `pending` → next turn, `input_wait` → the
inner do-while loop).  Fuel is consumed one unit per `next` call. -/
def createMessageGo (env : Env) : Nat → List MessageParam → Nat → Except Err (ResponseMessage × List MessageParam)
  | 0, _, _ => .error .outOfFuel
  | f + 1, messages, index =>
    match next env (mkPending messages index) with
    | .error e => .error e
    | .ok s =>
      match s.status with
      | .ready => .ok (s.response, s.messages)
      | .pending => createMessageGo env f s.messages s.index
      | .input_wait => createMessageIW env f s

/-- The inner `do … while (status === 'input_wait')` loop of `nextTurn`,
followed by `createMessage`'s treatment of the turn result (`done`
iff the final status is `ready`). -/
def createMessageIW (env : Env) : Nat → Stage → Except Err (ResponseMessage × List MessageParam)
  | 0, _ => .error .outOfFuel
  | f + 1, s =>
    match next env s with
    | .error e => .error e
    | .ok s' =>
      match s'.status with
      | .input_wait => createMessageIW env f s'
      | .ready => .ok (s'.response, s'.messages)
      | .pending => createMessageGo env f s'.messages s'.index

end

/-- `Driver.createMessage`: drive turn after turn, starting with
`messageIdx = 1`, until a turn reports `done`.  The TS method returns the
final response and leaves the final message list in the caller-owned
array; the pure model returns both. -/
def createMessage (env : Env) (fuel : Nat) (messages : List MessageParam) : Except Err (ResponseMessage × List MessageParam) :=
  createMessageGo env fuel messages 1

end Driver

/-! Observation helpers over content blocks. -/

/-- Is a block a `tool_use` block? -/
def isToolUse : ContentBlock → Bool
  | .tool_use _ _ _ => true
  | _ => false

/-- Is a block a `tool_result` block? -/
def isToolResult : ContentBlock → Bool
  | .tool_result _ _ _ => true
  | _ => false

/-- The `tool_use_id` field of a `tool_result` block. -/
def resultId : ContentBlock → Option String
  | .tool_result i _ _ => i
  | _ => none

/-- Number of `tool_use` blocks in a content list. -/
def countToolUse (l : List ContentBlock) : Nat :=
  (l.filter isToolUse).length

/-- Number of `tool_result` blocks in a content list. -/
def countToolResult (l : List ContentBlock) : Nat :=
  (l.filter isToolResult).length

/-! List indexing helpers for the `input_wait` shape
`messages = M ++ [assistant message, placeholder]`, `index = M.length + 1`. -/

theorem getElem?_append_pair_left {α : Type} (M : List α) (a b : α) :
    (M ++ [a, b])[M.length]? = some a := by
  induction M with
  | nil => rfl
  | cons x xs ih => simpa using ih

theorem getElem?_append_pair_right {α : Type} (M : List α) (a b : α) :
    (M ++ [a, b])[M.length + 1]? = some b := by
  induction M with
  | nil => rfl
  | cons x xs ih => simpa using ih

theorem set_append_pair {α : Type} (M : List α) (a b c : α) :
    (M ++ [a, b]).set (M.length + 1) c = M ++ [a, c] := by
  induction M with
  | nil => rfl
  | cons x xs ih => simp [ih]

/-- A content list with no `tool_use` block has no first `tool_use`
position, wherever the scan counter starts. -/
theorem firstToolUseAux_eq_none (l : List ContentBlock)
    (h : ∀ b ∈ l, isToolUse b = false) : ∀ i, Driver.firstToolUseAux i l = none := by
  induction l with
  | nil => intro i; rfl
  | cons b bs ih =>
    intro i
    have hb := h b (by simp)
    have hbs : ∀ x ∈ bs, isToolUse x = false := fun x hx => h x (by simp [hx])
    cases b with
    | text s => simpa [Driver.firstToolUseAux] using ih hbs (i + 1)
    | tool_use id name input => simp [isToolUse] at hb
    | tool_result j c e => simpa [Driver.firstToolUseAux] using ih hbs (i + 1)

/-- The scan finds the first `tool_use` right after a `tool_use`-free block
run. -/
theorem firstToolUseAux_append (pre : List ContentBlock) (b : ContentBlock)
    (bs : List ContentBlock) (hpre : ∀ x ∈ pre, isToolUse x = false)
    (hb : isToolUse b = true) :
    ∀ i, Driver.firstToolUseAux i (pre ++ b :: bs) = some (i + pre.length) := by
  induction pre with
  | nil =>
    intro i
    cases b with
    | tool_use id name input => simp [Driver.firstToolUseAux]
    | text s => simp [isToolUse] at hb
    | tool_result j c e => simp [isToolUse] at hb
  | cons x xs ih =>
    intro i
    have hx := hpre x (by simp)
    have hxs : ∀ y ∈ xs, isToolUse y = false := fun y hy => hpre y (by simp [hy])
    cases x with
    | text s =>
      simp only [List.cons_append, Driver.firstToolUseAux, List.append_eq, List.length_cons]
      rw [ih hxs (i + 1)]
      congr 1
      omega
    | tool_use id name input => simp [isToolUse] at hx
    | tool_result j c e =>
      simp only [List.cons_append, Driver.firstToolUseAux, List.append_eq, List.length_cons]
      rw [ih hxs (i + 1)]
      congr 1
      omega

/-- C9: an error that matches the malformed-schema shape
(`invalid_request_error`, message mentioning `input_schema` and starting
with `tools.`) but whose positional segment parses to `NaN`, a negative
index, or an index at or beyond the end of the tool list makes `parse`
throw a `TypeError` (reading `.name` of an undefined `tools[index]`)
instead of returning anything. -/
theorem C9_bad_index_throws (m : String) (msg : Option String) (tag : String)
    (tools : List Tool)
    (hinc : jsIncludes "input_schema".toList m.toList = true)
    (hpre : "tools.".toList.isPrefixOf m.toList = true)
    (hidx : ∀ n : Nat, parseIntJS ((jsSplit '.' m.toList).getD 1 []) = some (Int.ofNat n) →
      tools.length ≤ n) :
    ToolSchemaError.parse ⟨some ⟨some ⟨some "invalid_request_error", some m⟩⟩, msg, tag⟩ tools
      = .thrown := by
  simp only [ToolSchemaError.parse, Option.bind, hinc, Bool.and_self, beq_self_eq_true,
    if_true, hpre, if_pos]
  cases hp : parseIntJS ((jsSplit '.' m.toList).getD 1 []) with
  | none => rfl
  | some i =>
    cases i with
    | ofNat n =>
      have := hidx n hp
      simp [List.getElem?_eq_none this]
    | negSucc n => rfl

/-- Witness for C9: index 5 against an empty tool list. -/
theorem C9_witness :
    ToolSchemaError.parse
        ⟨some ⟨some ⟨some "invalid_request_error", some "tools.5.input_schema bad"⟩⟩, none, ""⟩ []
      = .thrown :=
  C9_bad_index_throws "tools.5.input_schema bad" none "" [] (by decide) (by decide)
    (fun n _ => Nat.zero_le n)

/-- The non-matching error used to refute the unparseable-format clause
of C8: well-shaped except that the positional segment is `x`. -/
def c8Err : ErrVal :=
  ⟨some ⟨some ⟨some "invalid_request_error", some "tools.x.input_schema bad"⟩⟩, none, ""⟩

/-- Counterexample to C8 as stated: an error with an unparseable
positional format after `tools.` (here `tools.x.`) is *not* returned
unchanged — `parse` throws (`parseInt` gives `NaN`, so `tools[NaN]` is
undefined and reading `.name` raises a `TypeError`). -/
theorem C8_counterexample :
    ToolSchemaError.parse c8Err [] = .thrown
    ∧ ToolSchemaError.parse c8Err [] ≠ .original c8Err := by
  exact ⟨by decide, by decide⟩

/-- C8 (amended): an error failing the match through any of the four
shape conditions — no nested `error.error` object, wrong error kind,
message missing the `input_schema` marker, or message not starting with
`tools.` — is returned unchanged, never classified.  (The unparseable
positional format case of the original claim instead throws, see the
counterexample.) -/
theorem C8_amended_nonmatching_error_unchanged (err : ErrVal) (tools : List Tool)
    (h : err.error.bind (fun e => e.error) = none
      ∨ (∃ ie, err.error.bind (fun e => e.error) = some ie
          ∧ ie.type ≠ some "invalid_request_error")
      ∨ (∃ ie, err.error.bind (fun e => e.error) = some ie
          ∧ ∀ m, ie.message = some m → jsIncludes "input_schema".toList m.toList = false)
      ∨ (∃ ie m, err.error.bind (fun e => e.error) = some ie ∧ ie.message = some m
          ∧ "tools.".toList.isPrefixOf m.toList = false)) :
    ToolSchemaError.parse err tools = .original err := by
  rcases h with h | ⟨ie, hie, hty⟩ | ⟨ie, hie, hmsg⟩ | ⟨ie, m, hie, hm, hp⟩
  · simp [ToolSchemaError.parse, h]
  · simp [ToolSchemaError.parse, hie, beq_eq_false_iff_ne.mpr hty]
  · cases hm : ie.message with
    | none => simp [ToolSchemaError.parse, hie, hm]
    | some m =>
      simp only [ToolSchemaError.parse]
      rw [hie]
      simp only [Option.bind]
      rw [hm]
      simp only [Bool.and_eq_true, beq_iff_eq]
      rw [if_neg (by simp only [not_and, Bool.not_eq_true]; exact fun _ => hmsg m hm)]
  · simp only [ToolSchemaError.parse]
    rw [hie]
    simp only [Option.bind]
    rw [hm]
    simp only [Bool.and_eq_true, beq_iff_eq]
    split
    · rw [if_neg (fun hcon => by rw [hp] at hcon; cases hcon)]
    · rfl

/-- Witness for C8 (amended): a plain error with no nested error object
is returned unchanged. -/
theorem C8_amended_witness :
    ToolSchemaError.parse ⟨none, some "Not a schema error", "plain"⟩ []
      = .original ⟨none, some "Not a schema error", "plain"⟩ :=
  C8_amended_nonmatching_error_unchanged ⟨none, some "Not a schema error", "plain"⟩ []
    (Or.inl rfl)

/-- C7: an error of nested type `invalid_request_error` whose message
starts with `tools.2.` and mentions `input_schema`, parsed against a
3-tool list, is classified with `toolIndex = 2`, `toolName` the third
tool's name, and the original error attached. -/
theorem C7_schema_error_classified (rest : String) (msg : Option String) (tag : String)
    (t1 t2 t3 : Tool)
    (hinc : jsIncludes "input_schema".toList ("tools.2." ++ rest).toList = true) :
    ∃ e : ToolSchemaError,
      ToolSchemaError.parse
          ⟨some ⟨some ⟨some "invalid_request_error", some ("tools.2." ++ rest)⟩⟩, msg, tag⟩
          [t1, t2, t3]
        = .classified e
      ∧ e.toolIndex = 2 ∧ e.toolName = t3.name
      ∧ e.originalError
          = ⟨some ⟨some ⟨some "invalid_request_error", some ("tools.2." ++ rest)⟩⟩, msg, tag⟩ := by
  have htl : ("tools.2." ++ rest).toList
      = 't' :: 'o' :: 'o' :: 'l' :: 's' :: '.' :: '2' :: '.' :: rest.toList := by
    show ("tools.2." ++ rest).data = _
    rw [String.data_append]
    rfl
  refine ⟨ToolSchemaError.make
    ⟨some ⟨some ⟨some "invalid_request_error", some ("tools.2." ++ rest)⟩⟩, msg, tag⟩ 2 t3.name,
    ?_, rfl, rfl, rfl⟩
  have hpre : "tools.".toList.isPrefixOf ("tools.2." ++ rest).toList = true := by
    rw [htl]
    simp [List.isPrefixOf]
  have hsplit : jsSplit '.' ("tools.2." ++ rest).toList
      = ['t', 'o', 'o', 'l', 's'] :: ['2'] :: jsSplitAux '.' [] rest.toList := by
    rw [htl]
    simp [jsSplit, jsSplitAux]
  simp only [ToolSchemaError.parse, Option.bind, hinc, beq_self_eq_true, Bool.and_self,
    if_true, hpre, if_pos, hsplit]
  rfl

/-- Witness for C7 at the spec's example message and three named tools. -/
theorem C7_witness :
    ∃ e : ToolSchemaError,
      ToolSchemaError.parse
          ⟨some ⟨some ⟨some "invalid_request_error",
            some ("tools.2." ++ "input_schema has invalid properties")⟩⟩,
           some "Original error message", ""⟩
          [⟨"tool1", "", ""⟩, ⟨"tool2", "", ""⟩, ⟨"tool3", "", ""⟩]
        = .classified e
      ∧ e.toolIndex = 2 ∧ e.toolName = (⟨"tool3", "", ""⟩ : Tool).name
      ∧ e.originalError
          = ⟨some ⟨some ⟨some "invalid_request_error",
              some ("tools.2." ++ "input_schema has invalid properties")⟩⟩,
             some "Original error message", ""⟩ :=
  C7_schema_error_classified "input_schema has invalid properties"
    (some "Original error message") "" ⟨"tool1", "", ""⟩ ⟨"tool2", "", ""⟩ ⟨"tool3", "", ""⟩
    (by decide)

/-- An `input_wait` transition only ever returns a `pending` or an
`input_wait` stage. -/
theorem iw_step_status (env : Env) (s s' : Stage) (hst : s.status = .input_wait)
    (h : Driver.next env s = .ok s') :
    s'.status = .pending ∨ s'.status = .input_wait := by
  obtain ⟨resp, msgs, idx, tci, smi, st⟩ := s
  simp only at hst
  subst hst
  simp only [Driver.next] at h
  split at h
  · split at h
    · exact absurd h (by simp)
    · split at h
      · cases h; exact Or.inl rfl
      · cases h; exact Or.inr rfl
  · exact absurd h (by simp)

/-- The `do … while (input_wait)` loop, started on a `pending` or
`input_wait` stage, can only finish on a `pending` stage. -/
theorem runWhileIW_final_pending (env : Env) :
    ∀ (f : Nat) (s s'' : Stage), (s.status = .pending ∨ s.status = .input_wait) →
      Driver.runWhileIW env f s = .ok s'' → s''.status = .pending := by
  intro f
  induction f with
  | zero =>
    intro s s'' hs h
    simp only [Driver.runWhileIW] at h
    rcases hs with hp | hi
    · rw [if_neg (by simp [hp])] at h
      cases h
      exact hp
    · rw [if_pos hi] at h
      exact absurd h (by simp)
  | succ f ih =>
    intro s s'' hs h
    simp only [Driver.runWhileIW] at h
    by_cases hi : s.status = .input_wait
    · rw [if_pos hi] at h
      cases hnx : Driver.next env s with
      | error e => rw [hnx] at h; exact absurd h (by simp [Except.bind])
      | ok s' =>
        rw [hnx] at h
        simp only [Except.bind] at h
        exact ih s' s'' (iw_step_status env s s' hi hnx) h
    · rw [if_neg hi] at h
      cases h
      rcases hs with hp | hip
      · exact hp
      · exact absurd hip hi

/-- A `pending` transition on a response whose `stop_reason` is
`tool_use` yields `input_wait` (some `tool_use` block found) or
`pending` (none found), never `ready`. -/
theorem pending_step_tool_use_status (env : Env) (s s' : Stage) (r : ResponseMessage)
    (hst : s.status = .pending)
    (hm : env.model s.messages = .ok r)
    (hsr : r.stop_reason = some .tool_use)
    (h : Driver.next env s = .ok s') :
    s'.status = .pending ∨ s'.status = .input_wait := by
  obtain ⟨resp, msgs, idx, tci, smi, st⟩ := s
  simp only at hst hm
  subst hst
  simp only [Driver.next, hm] at h
  cases hft : Driver.firstToolUse r.content with
  | some i =>
    rw [hft] at h
    cases h
    exact Or.inr rfl
  | none =>
    rw [hft] at h
    rw [if_pos hsr] at h
    cases h
    exact Or.inl rfl

/-- C5: for a response with `stop_reason = tool_use`, the whole step (one
`pending` transition followed by the `input_wait` loop) never produces a
`ready` stage: it finishes `pending`, after `input_wait` when a
`tool_use` block is present and directly otherwise. -/
theorem C5_tool_use_stop_never_ready (env : Env) (s : Stage) (r : ResponseMessage)
    (f : Nat) (s'' : Stage)
    (hst : s.status = .pending)
    (hm : env.model s.messages = .ok r)
    (hsr : r.stop_reason = some .tool_use)
    (hrun : (Driver.next env s).bind (Driver.runWhileIW env f) = .ok s'') :
    s''.status = .pending := by
  cases hnx : Driver.next env s with
  | error e => rw [hnx] at hrun; exact absurd hrun (by simp [Except.bind])
  | ok s' =>
    rw [hnx] at hrun
    simp only [Except.bind] at hrun
    exact runWhileIW_final_pending env f s' s''
      (pending_step_tool_use_status env s s' r hst hm hsr hnx) hrun

/-- Oracles for the C5 witness run: one `tool_use` block, `tool_use` stop
reason, a gateway answering with a single string payload. -/
def envC5 : Env :=
  ⟨fun _ => .ok ⟨"assistant", [.tool_use "t1" "f" "i"], some .tool_use⟩,
   fun _ _ => .ok (.single (.str "ok")), []⟩

/-- Final stage of the C5 witness run. -/
def stageC5 : Stage :=
  ⟨⟨"assistant", [.tool_use "t1" "f" "i"], some .tool_use⟩,
   [⟨"user", [.text "q"]⟩, ⟨"assistant", [.tool_use "t1" "f" "i"]⟩,
    ⟨"user", [.tool_result (some "t1") (.str "ok") false]⟩],
   2, none, none, .pending⟩

/-- Witness for C5 on a concrete one-tool run. -/
theorem C5_witness : stageC5.status = .pending :=
  C5_tool_use_stop_never_ready envC5 (Driver.mkPending [⟨"user", [.text "q"]⟩] 1) _ 2
    stageC5 rfl rfl rfl rfl

/-- C4: a tool invocation whose gateway call fails is caught: `call`
returns (never throws) a `tool_result` carrying the `tool_use` block's
id, `is_error: true` and the stringified error as content; and an
`input_wait` transition always succeeds, appending exactly the one
result block for the current submessage and moving on to the next one,
so a failing tool call never aborts the processing of the remaining
tool calls of the same response. -/
theorem C4_tool_failure_isolated (env : Env) (id name input e : String)
    (r : ResponseMessage) (M : List MessageParam) (am nm : MessageParam)
    (tci : Option Nat) (si : Nat) (b : ContentBlock)
    (hgw : env.gw (some name) (some input) = .error e)
    (hb : am.content[si]? = some b) :
    Driver.call env (.tool_use id name input) = .tool_result (some id) (.str e) true
    ∧ Driver.next env ⟨r, M ++ [am, nm], M.length + 1, tci, some si, .input_wait⟩
      = .ok (if am.content.length ≤ si + 1
          then ⟨r, M ++ [am, ⟨nm.role, nm.content ++ [Driver.call env b]⟩],
                M.length + 1, none, none, .pending⟩
          else ⟨r, M ++ [am, ⟨nm.role, nm.content ++ [Driver.call env b]⟩],
                M.length + 1, some (tci.getD 0 + 1), some (si + 1), .input_wait⟩) := by
  constructor
  · simp [Driver.call, blockId, blockName, blockInput, hgw]
  · simp only [Driver.next, Nat.add_sub_cancel, getElem?_append_pair_left,
      getElem?_append_pair_right, hb, set_append_pair]
    split <;> rfl

/-- Witness for C4: a failing gateway call on the only tool request. -/
theorem C4_witness :
    Driver.call ⟨fun _ => .error ⟨none, none, ""⟩, fun _ _ => .error "Error: boom", []⟩
        (.tool_use "t1" "add" "{}")
      = .tool_result (some "t1") (.str "Error: boom") true
    ∧ Driver.next ⟨fun _ => .error ⟨none, none, ""⟩, fun _ _ => .error "Error: boom", []⟩
        ⟨emptyResponse, [] ++ [⟨"assistant", [.tool_use "t1" "add" "{}"]⟩, ⟨"user", []⟩],
         ([] : List MessageParam).length + 1, some 0, some 0, .input_wait⟩
      = .ok (if (⟨"assistant", [.tool_use "t1" "add" "{}"]⟩ : MessageParam).content.length ≤ 0 + 1
          then ⟨emptyResponse,
                [] ++ [⟨"assistant", [.tool_use "t1" "add" "{}"]⟩,
                  ⟨("user" : String), ([] : List ContentBlock)
                    ++ [Driver.call ⟨fun _ => .error ⟨none, none, ""⟩, fun _ _ => .error "Error: boom", []⟩
                          (.tool_use "t1" "add" "{}")]⟩],
                ([] : List MessageParam).length + 1, none, none, .pending⟩
          else ⟨emptyResponse,
                [] ++ [⟨"assistant", [.tool_use "t1" "add" "{}"]⟩,
                  ⟨("user" : String), ([] : List ContentBlock)
                    ++ [Driver.call ⟨fun _ => .error ⟨none, none, ""⟩, fun _ _ => .error "Error: boom", []⟩
                          (.tool_use "t1" "add" "{}")]⟩],
                ([] : List MessageParam).length + 1, some ((some 0 : Option Nat).getD 0 + 1),
                some (0 + 1), .input_wait⟩) :=
  C4_tool_failure_isolated _ "t1" "add" "{}" "Error: boom" emptyResponse []
    ⟨"assistant", [.tool_use "t1" "add" "{}"]⟩ ⟨"user", []⟩ (some 0) 0
    (.tool_use "t1" "add" "{}") rfl rfl

/-- `call` always returns a `tool_result` block whose `tool_use_id` is
the destructured id of its argument. -/
theorem call_shape (env : Env) (b : ContentBlock) :
    isToolResult (Driver.call env b) = true
    ∧ resultId (Driver.call env b) = blockId b := by
  cases h : env.gw (blockName b) (blockInput b) with
  | ok p =>
    cases p with
    | arr items => simp [Driver.call, h, isToolResult, resultId]
    | single v => simp [Driver.call, h, isToolResult, resultId]
  | error e => simp [Driver.call, h, isToolResult, resultId]

/-- The results of mapping `call` over a block list are `tool_result`
blocks in the same order, each carrying the matching block's id. -/
theorem call_results_match (env : Env) (l : List ContentBlock) :
    List.Forall₂ (fun res b => isToolResult res = true ∧ resultId res = blockId b)
      (l.map (Driver.call env)) l := by
  induction l with
  | nil => exact List.Forall₂.nil
  | cons b bs ih => exact List.Forall₂.cons (call_shape env b) ih

/-- The `input_wait` loop over the tail of the assistant message: started
at submessage position `i` with `suffix` the remaining content blocks,
it appends `call`'s result for every remaining block (whatever its tag)
to the placeholder and comes back to `pending`. -/
theorem runWhileIW_consumes_suffix (env : Env) :
    ∀ (suffix : List ContentBlock) (M : List MessageParam) (am : MessageParam)
      (ro : String) (acc : List ContentBlock) (r : ResponseMessage)
      (tci : Option Nat) (i : Nat),
      am.content.drop i = suffix → suffix ≠ [] →
      Driver.runWhileIW env suffix.length
          ⟨r, M ++ [am, ⟨ro, acc⟩], M.length + 1, tci, some i, .input_wait⟩
        = .ok ⟨r, M ++ [am, ⟨ro, acc ++ suffix.map (Driver.call env)⟩],
               M.length + 1, none, none, .pending⟩ := by
  intro suffix
  induction suffix with
  | nil => intro M am ro acc r tci i hdrop hne; exact absurd rfl hne
  | cons b rest ih =>
    intro M am ro acc r tci i hdrop hne
    have hlen : am.content.length - i = rest.length + 1 := by
      have := List.length_drop i am.content
      rw [hdrop] at this
      simpa using this.symm
    have hget : am.content[i]? = some b := by
      have h0 : (am.content.drop i)[0]? = some b := by rw [hdrop]; simp
      rw [List.getElem?_drop] at h0
      simpa using h0
    simp only [List.length_cons, Driver.runWhileIW, if_pos]
    simp only [Driver.next, Nat.add_sub_cancel, getElem?_append_pair_left,
      getElem?_append_pair_right, hget, set_append_pair]
    cases rest with
    | nil =>
      rw [if_pos (by simp only [List.length_nil] at hlen; omega)]
      simp only [Except.bind, Driver.runWhileIW]
      rw [if_neg (by simp)]
      simp
    | cons b2 rest2 =>
      rw [if_neg (by simp only [List.length_cons] at hlen ⊢; omega)]
      simp only [Except.bind]
      have hdrop2 : am.content.drop (i + 1) = b2 :: rest2 := by
        have hdd : List.drop 1 (List.drop i am.content) = List.drop (i + 1) am.content :=
          List.drop_drop 1 i am.content
        rw [hdrop] at hdd
        simpa using hdd.symm
      rw [ih M am ro (acc ++ [Driver.call env b]) r
        (some (tci.getD 0 + 1)) (i + 1) hdrop2 (by simp)]
      simp

/-- C1 (amended): for a response whose content is a run of
non-`tool_use` blocks followed by a nonempty run of N `tool_use` blocks,
driving the machine through its `input_wait` phase appends exactly N
`tool_result` blocks to the placeholder user message, in the order of
the `tool_use` blocks, each carrying the matching block's id. -/
theorem C1_exact_results_for_tool_use_suffix (env : Env) (s : Stage)
    (r : ResponseMessage) (pre tus : List ContentBlock)
    (hst : s.status = .pending)
    (hidx : s.index ≤ s.messages.length + 1)
    (hm : env.model s.messages = .ok r)
    (hcontent : r.content = pre ++ tus)
    (hpre : ∀ b ∈ pre, isToolUse b = false)
    (htus : ∀ b ∈ tus, isToolUse b = true)
    (hne : tus ≠ []) :
    (Driver.next env s).bind (Driver.runWhileIW env tus.length)
      = .ok ⟨r, s.messages ++ [⟨r.role, r.content⟩, ⟨"user", tus.map (Driver.call env)⟩],
             s.messages.length + 1, none, none, .pending⟩
    ∧ (tus.map (Driver.call env)).length = tus.length
    ∧ List.Forall₂ (fun res b => isToolResult res = true ∧ resultId res = blockId b)
        (tus.map (Driver.call env)) tus := by
  refine ⟨?_, by simp, call_results_match env tus⟩
  obtain ⟨resp, msgs, idx, tci, smi, st⟩ := s
  simp only at hst hidx hm ⊢
  subst hst
  cases tus with
  | nil => exact absurd rfl hne
  | cons t rest =>
    have hfirst : Driver.firstToolUse r.content = some pre.length := by
      rw [hcontent]
      simpa using firstToolUseAux_append pre t rest hpre (htus t (by simp)) 0
    have hdrop : (⟨r.role, r.content⟩ : MessageParam).content.drop pre.length = t :: rest := by
      simp only
      rw [hcontent]
      exact List.drop_left pre (t :: rest)
    have hnext : Driver.next env ⟨resp, msgs, idx, tci, smi, .pending⟩
        = .ok ⟨r, msgs ++ [⟨r.role, r.content⟩, ⟨"user", []⟩], msgs.length + 1,
               some 0, some pre.length, .input_wait⟩ := by
      simp [Driver.next, hm, hfirst, Nat.max_eq_right hidx]
    rw [hnext]
    simp only [Except.bind]
    rw [runWhileIW_consumes_suffix env (t :: rest) msgs ⟨r.role, r.content⟩ "user" []
      r (some 0) pre.length hdrop (by simp)]
    simp

/-- Oracles for the C1 witness: one `text` block followed by one
`tool_use` block. -/
def envC1W : Env :=
  ⟨fun _ => .ok ⟨"assistant", [.text "a", .tool_use "t1" "f" "i"], some .tool_use⟩,
   fun _ _ => .ok (.single (.str "ok")), []⟩

/-- Witness for C1 (amended) on a concrete run with `pre = [text]` and
one `tool_use` block. -/
theorem C1_witness :
    (Driver.next envC1W (Driver.mkPending [⟨"user", [.text "q"]⟩] 1)).bind
        (Driver.runWhileIW envC1W 1)
      = .ok ⟨⟨"assistant", [.text "a", .tool_use "t1" "f" "i"], some .tool_use⟩,
             [⟨"user", [.text "q"]⟩,
              ⟨"assistant", [.text "a", .tool_use "t1" "f" "i"]⟩,
              ⟨"user", [.tool_result (some "t1") (.str "ok") false]⟩],
             2, none, none, .pending⟩
    ∧ ([ContentBlock.tool_use "t1" "f" "i"].map (Driver.call envC1W)).length
        = [ContentBlock.tool_use "t1" "f" "i"].length
    ∧ List.Forall₂ (fun res b => isToolResult res = true ∧ resultId res = blockId b)
        ([ContentBlock.tool_use "t1" "f" "i"].map (Driver.call envC1W))
        [ContentBlock.tool_use "t1" "f" "i"] :=
  C1_exact_results_for_tool_use_suffix envC1W (Driver.mkPending [⟨"user", [.text "q"]⟩] 1)
    ⟨"assistant", [.text "a", .tool_use "t1" "f" "i"], some .tool_use⟩
    [.text "a"] [.tool_use "t1" "f" "i"] rfl (by simp [Driver.mkPending]) rfl rfl
    (by decide) (by decide) (by decide)

/-- Oracles for the C1 counterexample: the response carries one
`tool_use` block followed by a trailing `text` block. -/
def c1Env : Env :=
  ⟨fun _ => .ok ⟨"assistant", [.tool_use "t1" "add" "{}", .text "x"], some .tool_use⟩,
   fun name _ =>
     match name with
     | some "add" => .ok (.arr [⟨"text", "4"⟩])
     | _ => .error "TypeError: tool not found",
   []⟩

/-- Counterexample to C1 as stated: with a non-`tool_use` block after the
first `tool_use` block (content `[tool_use t1, text]`, so N = 1), the
`input_wait` phase appends *two* `tool_result` blocks — the second one
produced by blindly treating the `text` block as a tool call, with an
undefined `tool_use_id` — so the placeholder does not hold exactly N
matching results. -/
theorem C1_counterexample :
    (Driver.next c1Env (Driver.mkPending [⟨"user", [.text "2+2?"]⟩] 1)).bind
        (Driver.runWhileIW c1Env 2)
      = .ok ⟨⟨"assistant", [.tool_use "t1" "add" "{}", .text "x"], some .tool_use⟩,
             [⟨"user", [.text "2+2?"]⟩,
              ⟨"assistant", [.tool_use "t1" "add" "{}", .text "x"]⟩,
              ⟨"user", [.tool_result (some "t1") (.items [⟨"text", "4"⟩]) false,
                        .tool_result none (.str "TypeError: tool not found") true]⟩],
             2, none, none, .pending⟩
    ∧ countToolUse [.tool_use "t1" "add" "{}", .text "x"] = 1
    ∧ countToolResult [.tool_result (some "t1") (.items [⟨"text", "4"⟩]) false,
        .tool_result none (.str "TypeError: tool not found") true] = 2 :=
  ⟨rfl, rfl, rfl⟩

/-- The `pending` transition only reads `messages`, `index` and
`toolCallIndex` from the stage, so on a stage with no `toolCallIndex` it
behaves like on the fresh stage `nextTurn` would build. -/
theorem next_pending_eq_mkPending (env : Env) (s : Stage)
    (hst : s.status = .pending) (htci : s.toolCallIndex = none) :
    Driver.next env s = Driver.next env (Driver.mkPending s.messages s.index) := by
  obtain ⟨resp, msgs, idx, tci, smi, st⟩ := s
  simp only at hst htci
  subst hst htci
  rfl

/-- Every `pending` stage produced by `next` carries no `toolCallIndex`. -/
theorem next_ok_pending_tci_none (env : Env) (s s' : Stage)
    (h : Driver.next env s = .ok s') (hs : s'.status = .pending) :
    s'.toolCallIndex = none := by
  obtain ⟨resp, msgs, idx, tci, smi, st⟩ := s
  cases st with
  | pending =>
    cases hm : env.model msgs with
    | error e => simp [Driver.next, hm] at h
    | ok r =>
      cases hft : Driver.firstToolUse r.content with
      | some i =>
        simp only [Driver.next, hm, hft] at h
        cases h
        simp at hs
      | none =>
        simp only [Driver.next, hm, hft] at h
        split_ifs at h <;> cases h <;> rfl
  | input_wait =>
    simp only [Driver.next] at h
    split at h
    · split at h
      · exact absurd h (by simp)
      · split at h
        · cases h; rfl
        · cases h; simp at hs
    · exact absurd h (by simp)
  | ready => exact absurd h (by simp [Driver.next])

/-- `runSteps` is the identity on a `ready` stage, whatever the fuel. -/
theorem runSteps_ready (env : Env) (f : Nat) (s : Stage) (h : s.status = .ready) :
    Driver.runSteps env f s = .ok s := by
  cases f <;> simp [Driver.runSteps, h]

/-- `runSteps` on a `pending` stage with no `toolCallIndex` equals
`runSteps` on the corresponding fresh pending stage. -/
theorem runSteps_pending_mk (env : Env) (f : Nat) (s : Stage)
    (hst : s.status = .pending) (htci : s.toolCallIndex = none) :
    Driver.runSteps env f s
      = Driver.runSteps env f (Driver.mkPending s.messages s.index) := by
  cases f with
  | zero => simp [Driver.runSteps, hst, Driver.mkPending]
  | succ f =>
    simp only [Driver.runSteps]
    rw [if_neg (by simp [hst]), if_neg (by simp [Driver.mkPending])]
    rw [next_pending_eq_mkPending env s hst htci]

/-- Simulation between step-by-step driving (`runSteps`) and the
`createMessage` turn loop, fuel-exact: at every fuel, starting a turn on
`(messages, index)` and starting the `input_wait` loop on a stage agree
with plain `next` iteration. -/
theorem createMessage_sim (env : Env) : ∀ f : Nat,
    (∀ (msgs : List MessageParam) (idx : Nat),
      (Driver.runSteps env f (Driver.mkPending msgs idx)).map (fun s => (s.response, s.messages))
        = Driver.createMessageGo env f msgs idx)
    ∧ (∀ s : Stage, s.status = .input_wait →
      (Driver.runSteps env f s).map (fun s => (s.response, s.messages))
        = Driver.createMessageIW env f s) := by
  intro f
  induction f with
  | zero =>
    constructor
    · intro msgs idx
      simp [Driver.runSteps, Driver.mkPending, Driver.createMessageGo, Except.map]
    · intro s hs
      simp [Driver.runSteps, hs, Driver.createMessageIW, Except.map]
  | succ f ih =>
    constructor
    · intro msgs idx
      simp only [Driver.runSteps, Driver.createMessageGo]
      rw [if_neg (by simp [Driver.mkPending])]
      cases hnx : Driver.next env (Driver.mkPending msgs idx) with
      | error e => simp [Except.bind, Except.map]
      | ok s1 =>
        simp only [Except.bind]
        cases hs1 : s1.status with
        | ready => rw [runSteps_ready env f s1 hs1]; simp [Except.map]
        | pending =>
          rw [runSteps_pending_mk env f s1 hs1 (next_ok_pending_tci_none env _ s1 hnx hs1)]
          exact ih.1 s1.messages s1.index
        | input_wait => exact ih.2 s1 hs1
    · intro s hs
      simp only [Driver.runSteps, Driver.createMessageIW]
      rw [if_neg (by simp [hs])]
      cases hnx : Driver.next env s with
      | error e => simp [Except.bind, Except.map]
      | ok s1 =>
        simp only [Except.bind]
        cases hs1 : s1.status with
        | ready => rw [runSteps_ready env f s1 hs1]; simp [Except.map]
        | pending =>
          rw [runSteps_pending_mk env f s1 hs1 (next_ok_pending_tci_none env _ s1 hnx hs1)]
          exact ih.1 s1.messages s1.index
        | input_wait => exact ih.2 s1 hs1

/-- C2: driving the machine step by step with `next` from the initial
pending stage (messages, `index = 1`) until `ready` produces exactly the
same outcome — same final response and same final message list, and the
same error or fuel exhaustion otherwise — as the single `createMessage`
call on the same input, for every oracle environment and fuel. -/
theorem C2_step_driving_equals_createMessage (env : Env) (f : Nat)
    (msgs : List MessageParam) :
    (Driver.runSteps env f (Driver.mkPending msgs 1)).map (fun s => (s.response, s.messages))
      = Driver.createMessage env f msgs :=
  (createMessage_sim env f).1 msgs 1

/-- C10: calling `next` on a stage whose status is `ready` (the only
status besides `pending` and `input_wait`) throws the
`Illegal status: ` error from the `default` branch; no stage (and in
particular no message list) is produced, so a terminal stage is never
treated as a no-op. -/
theorem C10_next_on_ready_throws_illegal_status (env : Env) (s : Stage)
    (h : s.status = .ready) :
    Driver.next env s = .error (.illegal "Illegal status: ready") := by
  obtain ⟨resp, msgs, idx, tci, smi, st⟩ := s
  simp only at h
  subst h
  rfl

/-- Witness for C10 at a concrete ready stage. -/
theorem C10_witness :
    Driver.next ⟨fun _ => .error ⟨none, none, ""⟩, fun _ _ => .error "", []⟩
        ⟨emptyResponse, [], 0, none, none, .ready⟩
      = .error (.illegal "Illegal status: ready") :=
  C10_next_on_ready_throws_illegal_status _ _ rfl

/-- C3: on a pending stage carrying `toolCallIndex > 0` from a prior
cycle, a response with `stop_reason = end_turn` and no `tool_use` block
leaves the machine `pending` (keeping the appended placeholder) rather
than `ready`. -/
theorem C3_end_turn_after_prior_tool_calls_stays_pending (env : Env)
    (s : Stage) (r : ResponseMessage) (k : Nat)
    (hst : s.status = .pending)
    (htci : s.toolCallIndex = some k) (hk : 0 < k)
    (hm : env.model s.messages = .ok r)
    (hsr : r.stop_reason = some .end_turn)
    (hnotu : ∀ b ∈ r.content, isToolUse b = false) :
    Driver.next env s
      = .ok ⟨r, s.messages ++ [⟨r.role, r.content⟩, ⟨"user", []⟩],
             max s.index (s.messages.length + 1), none, none, .pending⟩ := by
  obtain ⟨resp, msgs, idx, tci, smi, st⟩ := s
  simp only at hst htci hm hnotu ⊢
  subst hst htci
  simp only [Driver.next, hm, Driver.firstToolUse, firstToolUseAux_eq_none _ hnotu 0, hsr,
    List.append_assoc, List.cons_append, List.nil_append, List.length_append, List.length_cons,
    List.length_nil]
  simp [Option.getD, hk]

/-- Witness for C3: a concrete pending stage with `toolCallIndex = 1`
and an `end_turn` response with no tool work stays pending. -/
theorem C3_witness :
    Driver.next
        ⟨fun _ => .ok ⟨"assistant", [.text "done"], some .end_turn⟩, fun _ _ => .error "", []⟩
        ⟨emptyResponse, [⟨"user", [.text "hi"]⟩], 1, some 1, none, .pending⟩
      = .ok ⟨⟨"assistant", [.text "done"], some .end_turn⟩,
             [⟨"user", [.text "hi"]⟩] ++ [⟨"assistant", [.text "done"]⟩, ⟨"user", []⟩],
             max 1 ([⟨"user", [.text "hi"]⟩] : List MessageParam).length.succ,
             none, none, .pending⟩ :=
  C3_end_turn_after_prior_tool_calls_stays_pending _ _ _ 1 rfl rfl (by decide) rfl rfl
    (by decide)

/-- C6: a response with no `tool_use` block and `stop_reason = end_turn`
on a pending stage with no prior tool call this turn reaches `ready`,
and the placeholder user message is popped: the final message list is
the old one plus only the assistant response. -/
theorem C6_end_turn_without_tools_reaches_ready_and_drops_placeholder (env : Env)
    (s : Stage) (r : ResponseMessage)
    (hst : s.status = .pending)
    (htci : s.toolCallIndex = none)
    (hm : env.model s.messages = .ok r)
    (hsr : r.stop_reason = some .end_turn)
    (hnotu : ∀ b ∈ r.content, isToolUse b = false) :
    Driver.next env s
      = .ok ⟨r, s.messages ++ [⟨r.role, r.content⟩],
             max s.index (s.messages.length + 1), none, none, .ready⟩ := by
  obtain ⟨resp, msgs, idx, tci, smi, st⟩ := s
  simp only at hst htci hm hnotu ⊢
  subst hst htci
  simp [Driver.next, hm, Driver.firstToolUse, firstToolUseAux_eq_none _ hnotu 0, hsr]

/-- Witness for C6: the spec's `2+2?` scenario — final list has exactly
the user and assistant messages, no placeholder. -/
theorem C6_witness :
    Driver.next
        ⟨fun _ => .ok ⟨"assistant", [.text "4"], some .end_turn⟩, fun _ _ => .error "", []⟩
        ⟨emptyResponse, [⟨"user", [.text "2+2?"]⟩], 1, none, none, .pending⟩
      = .ok ⟨⟨"assistant", [.text "4"], some .end_turn⟩,
             [⟨"user", [.text "2+2?"]⟩] ++ [⟨"assistant", [.text "4"]⟩],
             max 1 ([⟨"user", [.text "2+2?"]⟩] : List MessageParam).length.succ,
             none, none, .ready⟩ :=
  C6_end_turn_without_tools_reaches_ready_and_drops_placeholder _ _ _ rfl rfl rfl rfl
    (by decide)

end Mcpx
